import Mathlib

/-!
Shallow embedding of the OME-TIFF batch converter
(`ome_tiff_batch_gui_v2.py`): the reduction policy, pyramid builder,
OME-TIFF / HDF5 / BigDataViewer emitters, metadata reader and the
per-file orchestrator, together with theorems settling the spec claims.

Images are rasters of integer samples, modelled as lists of rows.
Real-valued calibration arithmetic (done in Python floats) is modelled
exactly over `ℚ`.
-/

namespace OmeBatch

/-- A raster plane: a list of rows of integer samples. -/
abbrev Image := List (List Int)

/-- Number of columns, read off the first row (numpy `shape[1]`). -/
def width (img : Image) : Nat := (img.headD []).length

/-- Rectangularity: every row has length `w` (numpy arrays are rectangular). -/
def rect (w : Nat) (img : Image) : Prop := ∀ r ∈ img, r.length = w

/-- Smaller of the two dimensions, `min(img.shape)` in numpy. -/
def minDim (img : Image) : Nat := min img.length (width img)

/-- Skip-counter scan behind `strideTake`: keep the element when the
counter is 0 and reset it to `f - 1`, else decrement. -/
def strideAux (f : Nat) : Nat → List α → List α
  | _, [] => []
  | 0, x :: xs => x :: strideAux f (f - 1) xs
  | k + 1, _ :: xs => strideAux f k xs

/-- Python extended slicing `xs[::f]`: elements at indices `0, f, 2f, …`. -/
def strideTake (f : Nat) (xs : List α) : List α := strideAux f 0 xs

/-- Python `base[::f, ::f]`: stride-`f` subsampling of rows and columns. -/
def stride2d (f : Nat) (img : Image) : Image :=
  (strideTake f img).map (strideTake f)

theorem strideAux_length (f : Nat) (hf : 1 ≤ f) :
    ∀ (xs : List α) (k : Nat),
      (strideAux f k xs).length = (xs.length - k + f - 1) / f := by
  intro xs
  induction xs with
  | nil =>
    intro k
    have h0 : (f - 1) / f = 0 := Nat.div_eq_of_lt (by omega)
    simp [strideAux]
    omega
  | cons x xs ih =>
    intro k
    cases k with
    | zero =>
      rw [show strideAux f 0 (x :: xs) = x :: strideAux f (f - 1) xs from rfl]
      rw [List.length_cons, ih (f - 1)]
      simp only [List.length_cons]
      rcases le_or_lt (f - 1) xs.length with hge | hlt
      · have h1 : xs.length - (f - 1) + f - 1 = xs.length := by omega
        have h2 : xs.length + 1 - 0 + f - 1 = xs.length + f := by omega
        rw [h1, h2, Nat.add_div_right _ (by omega)]
      · have h1 : xs.length - (f - 1) + f - 1 = f - 1 := by omega
        have h2 : xs.length + 1 - 0 + f - 1 = xs.length + f := by omega
        rw [h1, h2]
        have h3 : (f - 1) / f = 0 := Nat.div_eq_of_lt (by omega)
        have h4 : (xs.length + f) / f = xs.length / f + 1 :=
          Nat.add_div_right _ (by omega)
        have h5 : xs.length / f = 0 := Nat.div_eq_of_lt (by omega)
        omega
    | succ k =>
      rw [show strideAux f (k + 1) (x :: xs) = strideAux f k xs from rfl, ih k]
      simp only [List.length_cons]
      have h1 : xs.length + 1 - (k + 1) = xs.length - k := by omega
      rw [h1]

/-- Stride subsampling keeps `⌈n / f⌉` of `n` elements. -/
theorem strideTake_length (f : Nat) (hf : 1 ≤ f) (xs : List α) :
    (strideTake f xs).length = (xs.length + f - 1) / f := by
  rw [strideTake, strideAux_length f hf, Nat.sub_zero]

theorem strideAux_mem (f : Nat) :
    ∀ (xs : List α) (k : Nat), ∀ y ∈ strideAux f k xs, y ∈ xs := by
  intro xs
  induction xs with
  | nil => intro k y hy; simp [strideAux] at hy
  | cons x xs ih =>
    intro k y hy
    cases k with
    | zero =>
      rw [show strideAux f 0 (x :: xs) = x :: strideAux f (f - 1) xs from rfl] at hy
      rcases List.mem_cons.mp hy with h | h
      · simp [h]
      · exact List.mem_cons_of_mem _ (ih (f - 1) y h)
    | succ k =>
      rw [show strideAux f (k + 1) (x :: xs) = strideAux f k xs from rfl] at hy
      exact List.mem_cons_of_mem _ (ih k y hy)

theorem strideTake_mem (f : Nat) (xs : List α) : ∀ y ∈ strideTake f xs, y ∈ xs :=
  strideAux_mem f xs 0

/-- Row count of a 2-D stride subsample. -/
theorem stride2d_length (f : Nat) (hf : 1 ≤ f) (img : Image) :
    (stride2d f img).length = (img.length + f - 1) / f := by
  rw [stride2d, List.length_map, strideTake_length f hf]

/-- A 2-D stride subsample of a rectangular image is rectangular with
`⌈w / f⌉` columns. -/
theorem stride2d_rect (f : Nat) (hf : 1 ≤ f) (w : Nat) (img : Image)
    (hr : rect w img) : rect ((w + f - 1) / f) (stride2d f img) := by
  intro r hr'
  rw [stride2d] at hr'
  rcases List.mem_map.mp hr' with ⟨r0, hr0, hmap⟩
  have : r0 ∈ img := strideTake_mem f img r0 hr0
  rw [← hmap, strideTake_length f hf, hr r0 this]

/-! ## Reduction policy (`calculate_reduction_factor`) -/

/-- Least `f` with `n ≤ f * f`; the rounded-up integer square root. -/
def ceilSqrt (n : Nat) : Nat :=
  if Nat.sqrt n * Nat.sqrt n = n then Nat.sqrt n else Nat.sqrt n + 1

/-- Source translation of `calculate_reduction_factor(image_shape, target_pixels)`:
returns `1` if `shape[0]*shape[1] ≤ target_pixels`, otherwise
`ceil(sqrt(current / target))`.  The Python float expression
`int(np.ceil(np.sqrt(current_pixels / target_pixels)))` is modelled as
exact arithmetic: `⌈√(p/B)⌉ = ceilSqrt ⌈p/B⌉` since an integer square is
`≥ p/B` iff it is `≥ ⌈p/B⌉`. -/
def calculate_reduction_factor (image_shape : Nat × Nat) (target_pixels : Nat) : Nat :=
  let current_pixels := image_shape.1 * image_shape.2
  if current_pixels ≤ target_pixels then 1
  else ceilSqrt ((current_pixels + target_pixels - 1) / target_pixels)

theorem ceilSqrt_le_iff (n f : Nat) : ceilSqrt n ≤ f ↔ n ≤ f * f := by
  rw [ceilSqrt]
  split
  · next h =>
    constructor
    · intro hle
      calc n = Nat.sqrt n * Nat.sqrt n := h.symm
        _ ≤ f * f := Nat.mul_le_mul hle hle
    · intro hnf
      exact (Nat.sqrt_le_sqrt hnf).trans (le_of_eq (Nat.sqrt_eq f))
  · next h =>
    have hne : n ≠ f * f := by
      intro he
      exact h (by rw [he, Nat.sqrt_eq])
    have hlt : Nat.sqrt n < f ↔ n < f * f := Nat.sqrt_lt
    constructor
    · intro hle
      have : Nat.sqrt n < f := by omega
      have := hlt.mp this
      omega
    · intro hnf
      have : n < f * f := by omega
      have := hlt.mpr this
      omega

theorem ceilDiv_le_iff (p B m : Nat) (hB : 1 ≤ B) :
    (p + B - 1) / B ≤ m ↔ p ≤ B * m := by
  rw [Nat.div_le_iff_le_mul_add_pred (by omega)]
  omega

/-! ## Pyramid builder (the loop in `create_ome_bigtiff_pyramid`) -/

/-- Adjacent pairs of a list, dropping a trailing unpaired element. -/
def chunk2 : List α → List (α × α)
  | a :: b :: rest => (a, b) :: chunk2 rest
  | _ => []

/-- Modelled from the spec: `skimage.transform.pyramid_reduce(current,
downscale=2, preserve_range=True)` is external library code missing from
the repository; the spec describes it as a "2× area-reduced version of the
previous (resampling algorithm: low-pass + decimate, preserving the
original numeric range and element type)" with "both dimensions ≈ level
(k-1) dimensions /2 (floor)".  Modelled as a 2×2 block mean with integer
division: both output dimensions are the input dimensions halved, floor. -/
def pyramid_reduce (img : Image) : Image :=
  (chunk2 img).map fun rr =>
    (chunk2 (rr.1.zip rr.2)).map fun cc =>
      (cc.1.1 + cc.1.2 + cc.2.1 + cc.2.2) / 4

theorem chunk2_length : ∀ (xs : List α), (chunk2 xs).length = xs.length / 2
  | [] => by simp [chunk2]
  | [_] => by simp [chunk2]
  | _ :: _ :: rest => by
    rw [chunk2, List.length_cons, chunk2_length rest]
    simp only [List.length_cons]
    omega

theorem chunk2_mem : ∀ (xs : List α) (p : α × α), p ∈ chunk2 xs → p.1 ∈ xs ∧ p.2 ∈ xs
  | [], p, hp => by simp [chunk2] at hp
  | [_], p, hp => by simp [chunk2] at hp
  | a :: b :: rest, p, hp => by
    rw [chunk2] at hp
    rcases List.mem_cons.mp hp with h | h
    · subst h
      exact ⟨List.mem_cons_self _ _, List.mem_cons_of_mem _ (List.mem_cons_self _ _)⟩
    · have := chunk2_mem rest p h
      exact ⟨List.mem_cons_of_mem _ (List.mem_cons_of_mem _ this.1),
             List.mem_cons_of_mem _ (List.mem_cons_of_mem _ this.2)⟩

/-- The modelled `pyramid_reduce` halves the row count (floor). -/
theorem pyramid_reduce_length (img : Image) :
    (pyramid_reduce img).length = img.length / 2 := by
  rw [pyramid_reduce, List.length_map, chunk2_length]

/-- The modelled `pyramid_reduce` keeps the image rectangular, halving the
column count (floor). -/
theorem pyramid_reduce_rect (w : Nat) (img : Image) (hr : rect w img) :
    rect (w / 2) (pyramid_reduce img) := by
  intro r hrm
  rw [pyramid_reduce] at hrm
  rcases List.mem_map.mp hrm with ⟨rr, hrr, hmap⟩
  have hm := chunk2_mem img rr hrr
  rw [← hmap, List.length_map, chunk2_length, List.length_zip,
      hr rr.1 hm.1, hr rr.2 hm.2, Nat.min_self]

/-- The column count of the modelled reduction is at most half the
original (used for termination; no rectangularity needed). -/
theorem width_pyramid_reduce_le (img : Image) :
    width (pyramid_reduce img) ≤ width img / 2 := by
  cases img with
  | nil => simp [pyramid_reduce, chunk2, width]
  | cons r1 rest =>
    cases rest with
    | nil => simp [pyramid_reduce, chunk2, width]
    | cons r2 rest =>
      show ((((r1, r2) :: chunk2 rest).map _).headD []).length ≤ _
      simp only [List.map_cons, List.headD_cons]
      rw [List.length_map, chunk2_length, List.length_zip]
      have : min r1.length r2.length ≤ r1.length := Nat.min_le_left _ _
      have hw : width (r1 :: r2 :: rest) = r1.length := rfl
      omega

/-- A nonempty rectangular image's `width` is the common row length. -/
theorem rect_width (w : Nat) (img : Image) (hr : rect w img) (hne : img ≠ []) :
    width img = w := by
  cases img with
  | nil => exact absurd rfl hne
  | cons r rest => exact hr r (List.mem_cons_self _ _)

/-- Source translation of the pyramid loop in `create_ome_bigtiff_pyramid`:
`while min(current.shape) >= min_size * 2: current = pyramid_reduce(current);
pyramid.append(current)`, returning the appended levels.  The guard
`1 ≤ min_size` is added for totality: the source loop does not terminate
when `min_size = 0` (the claims and the source default `min_size=512` have
`min_size ≥ 1`). -/
def pyramid_loop (min_size : Nat) (current : Image) : List Image :=
  if h : 1 ≤ min_size ∧ min_size * 2 ≤ minDim current then
    pyramid_reduce current :: pyramid_loop min_size (pyramid_reduce current)
  else []
termination_by minDim current
decreasing_by
  have h1 : (pyramid_reduce current).length = current.length / 2 :=
    pyramid_reduce_length current
  have h2 : width (pyramid_reduce current) ≤ width current / 2 :=
    width_pyramid_reduce_le current
  simp only [minDim] at h ⊢
  omega

/-- Source translation of `pyramid = [base]` followed by the reduction loop. -/
def create_pyramid (min_size : Nat) (base : Image) : List Image :=
  base :: pyramid_loop min_size base

theorem pyramid_loop_pos (m : Nat) (c : Image)
    (h : 1 ≤ m ∧ m * 2 ≤ minDim c) :
    pyramid_loop m c = pyramid_reduce c :: pyramid_loop m (pyramid_reduce c) := by
  rw [pyramid_loop, dif_pos h]

theorem pyramid_loop_neg (m : Nat) (c : Image)
    (h : ¬(1 ≤ m ∧ m * 2 ≤ minDim c)) :
    pyramid_loop m c = [] := by
  rw [pyramid_loop, dif_neg h]

/-- Reduction strictly shrinks the smaller dimension when it is at least 2. -/
theorem minDim_reduce_lt (c : Image) (h2 : 2 ≤ minDim c) :
    minDim (pyramid_reduce c) < minDim c := by
  have h1 : (pyramid_reduce c).length = c.length / 2 := pyramid_reduce_length c
  have h3 : width (pyramid_reduce c) ≤ width c / 2 := width_pyramid_reduce_le c
  simp only [minDim] at *
  omega

/-- Each pyramid level after the first is the reduction of its predecessor. -/
theorem chain_succ_aux (m : Nat) :
    ∀ (n : Nat) (c : Image), minDim c ≤ n →
      ∀ k, k + 1 < (c :: pyramid_loop m c).length →
        (c :: pyramid_loop m c).getD (k + 1) [] =
          pyramid_reduce ((c :: pyramid_loop m c).getD k []) := by
  intro n
  induction n with
  | zero =>
    intro c hc k hk
    rw [pyramid_loop_neg m c (by intro hg; omega)] at hk
    simp at hk
  | succ n ih =>
    intro c hc k hk
    by_cases hg : 1 ≤ m ∧ m * 2 ≤ minDim c
    · rw [pyramid_loop_pos m c hg] at hk ⊢
      cases k with
      | zero => simp
      | succ k =>
        have hred : minDim (pyramid_reduce c) ≤ n := by
          have := minDim_reduce_lt c (by omega)
          omega
        have hk' : k + 1 <
            (pyramid_reduce c :: pyramid_loop m (pyramid_reduce c)).length := by
          simp at hk ⊢
          omega
        have := ih (pyramid_reduce c) hred k hk'
        simpa using this
    · rw [pyramid_loop_neg m c hg] at hk
      simp at hk

/-- Level `k` of the pyramid chain is rectangular with both dimensions
divided by `2 ^ k` (floor). -/
theorem chain_levels_aux (m : Nat) :
    ∀ (n : Nat) (c : Image) (w : Nat), minDim c ≤ n → rect w c →
      ∀ k, k < (c :: pyramid_loop m c).length →
        rect (w / 2 ^ k) ((c :: pyramid_loop m c).getD k []) ∧
        ((c :: pyramid_loop m c).getD k []).length = c.length / 2 ^ k := by
  intro n
  induction n with
  | zero =>
    intro c w hc hr k hk
    rw [pyramid_loop_neg m c (by intro hg; omega)] at hk ⊢
    simp at hk
    subst hk
    simpa using hr
  | succ n ih =>
    intro c w hc hr k hk
    by_cases hg : 1 ≤ m ∧ m * 2 ≤ minDim c
    · rw [pyramid_loop_pos m c hg] at hk ⊢
      cases k with
      | zero => simpa using hr
      | succ k =>
        have hred : minDim (pyramid_reduce c) ≤ n := by
          have := minDim_reduce_lt c (by omega)
          omega
        have hrrect : rect (w / 2) (pyramid_reduce c) := pyramid_reduce_rect w c hr
        have hk' : k <
            (pyramid_reduce c :: pyramid_loop m (pyramid_reduce c)).length := by
          simp at hk ⊢
          omega
        have hih := ih (pyramid_reduce c) (w / 2) hred hrrect k hk'
        have hdiv : w / 2 / 2 ^ k = w / 2 ^ (k + 1) := by
          rw [Nat.div_div_eq_div_mul, pow_succ, Nat.mul_comm]
        have hlen : (pyramid_reduce c).length / 2 ^ k = c.length / 2 ^ (k + 1) := by
          rw [pyramid_reduce_length, Nat.div_div_eq_div_mul, pow_succ, Nat.mul_comm]
        constructor
        · have := hih.1
          rw [hdiv] at this
          simpa using this
        · have := hih.2
          rw [hlen] at this
          simpa using this
    · rw [pyramid_loop_neg m c hg] at hk ⊢
      simp at hk
      subst hk
      simpa using hr

/-- Generation continues past level `k` exactly when level `k` still
satisfies the loop guard `min(dims) ≥ 2 * min_size`. -/
theorem chain_guard_aux (m : Nat) (hm : 1 ≤ m) :
    ∀ (n : Nat) (c : Image), minDim c ≤ n →
      ∀ k, k < (c :: pyramid_loop m c).length →
        (k + 1 < (c :: pyramid_loop m c).length ↔
          m * 2 ≤ minDim ((c :: pyramid_loop m c).getD k [])) := by
  intro n
  induction n with
  | zero =>
    intro c hc k hk
    rw [pyramid_loop_neg m c (by intro hg; omega)] at hk ⊢
    simp at hk
    subst hk
    simp
    omega
  | succ n ih =>
    intro c hc k hk
    by_cases hg : 1 ≤ m ∧ m * 2 ≤ minDim c
    · rw [pyramid_loop_pos m c hg] at hk ⊢
      cases k with
      | zero =>
        simp
        exact hg.2
      | succ k =>
        have hred : minDim (pyramid_reduce c) ≤ n := by
          have := minDim_reduce_lt c (by omega)
          omega
        have hk' : k <
            (pyramid_reduce c :: pyramid_loop m (pyramid_reduce c)).length := by
          simp at hk ⊢
          omega
        have := ih (pyramid_reduce c) hred k hk'
        simp at this ⊢
        exact this
    · rw [pyramid_loop_neg m c hg] at hk ⊢
      simp at hk
      subst hk
      simp
      omega

/-- The loop generates no more levels under a larger threshold. -/
theorem pyramid_loop_mono_aux (m m' : Nat) (hm : 1 ≤ m) (hmm : m ≤ m') :
    ∀ (n : Nat) (c : Image), minDim c ≤ n →
      (pyramid_loop m' c).length ≤ (pyramid_loop m c).length := by
  intro n
  induction n with
  | zero =>
    intro c hc
    rw [pyramid_loop_neg m' c (by intro hg; omega)]
    simp
  | succ n ih =>
    intro c hc
    by_cases hg : 1 ≤ m' ∧ m' * 2 ≤ minDim c
    · have hgm : 1 ≤ m ∧ m * 2 ≤ minDim c := by omega
      rw [pyramid_loop_pos m' c hg, pyramid_loop_pos m c hgm]
      have hred : minDim (pyramid_reduce c) ≤ n := by
        have := minDim_reduce_lt c (by omega)
        omega
      simpa using ih (pyramid_reduce c) hred
    · rw [pyramid_loop_neg m' c hg]
      simp

/-! ## OME-TIFF emitter (`create_ome_bigtiff_pyramid`) -/

/-- A raster read from an MRC file: either a single 2-D plane or a 3-D
stack of planes (`mrc.data.ndim` is 2 or 3 for MRC data). -/
inductive Raster where
  | d2 (img : Image)
  | d3 (stack : List Image)

/-- OME `Channel` element as constructed by the source. -/
structure OmeChannel where
  id : String
  name : String
  samples_per_pixel : Nat
deriving DecidableEq

/-- OME `Pixels` element as constructed by the source. -/
structure OmePixels where
  dimension_order : String
  type : String
  size_x : Nat
  size_y : Nat
  size_z : Nat
  size_c : Nat
  size_t : Nat
  physical_size_x : ℚ
  physical_size_y : ℚ
  channels : List OmeChannel
  id : String
deriving DecidableEq

/-- OME `Image` element as constructed by the source. -/
structure OmeImage where
  name : String
  id : String
  pixels : OmePixels
deriving DecidableEq

/-- The OME metadata document embedded as the first page's description. -/
structure OME where
  images : List OmeImage
deriving DecidableEq

/-- One page of the written TIFF: the first page carries `subifds` and the
OME-XML description, sub-resolution pages carry neither. -/
structure TiffPage where
  data : Image
  subifds : Option Nat
  photometric : String
  tile : Nat × Nat
  compression : String
  description : Option OME

/-- The written OME-TIFF container plus the intermediate values of the
source function (pyramid, adjusted calibration). -/
structure OmeTiffResult where
  pyramid : List Image
  adjusted_pixel_spacing : ℚ
  pixel_size_um : ℚ
  ome : OME
  bigtiff : Bool
  pages : List TiffPage

/-- Source translation of `create_ome_bigtiff_pyramid(mrc_base_path,
output_path, pixel_spacing_angstrom, min_size=512, tile_size=256,
compression='deflate', reduction_factor=1)`.  `mrc_name` stands for
`Path(mrc_base_path).name`; the raster is the data read from that file.
Raises (`Except.error`) exactly where the source raises
`ValueError("Image must be 2D.")`; `0.0001` is the exact `1/10000`. -/
def create_ome_bigtiff_pyramid (mrc_name : String) (base_raster : Raster)
    (pixel_spacing_angstrom : ℚ) (min_size : Nat) (tile_size : Nat)
    (compression : String) (reduction_factor : Nat) :
    Except String OmeTiffResult :=
  match base_raster with
  | .d3 _ => .error "Image must be 2D."
  | .d2 base0 =>
    .ok (create_ome_planes mrc_name base0 pixel_spacing_angstrom min_size
      tile_size compression reduction_factor)
where
  create_ome_planes (mrc_name : String) (base0 : Image)
      (pixel_spacing_angstrom : ℚ) (min_size : Nat) (tile_size : Nat)
      (compression : String) (reduction_factor : Nat) : OmeTiffResult :=
    let base := if 1 < reduction_factor then stride2d reduction_factor base0 else base0
    let adjusted_pixel_spacing :=
      if 1 < reduction_factor then pixel_spacing_angstrom * reduction_factor
      else pixel_spacing_angstrom
    let pyramid := create_pyramid min_size base
    let pixel_size_um := adjusted_pixel_spacing * (1 / 10000)
    let ome : OME :=
      { images := [
          { name := mrc_name
            id := "Image:0"
            pixels :=
              { dimension_order := "XYCZT"
                type := "int64"
                size_x := width base
                size_y := base.length
                size_z := 1
                size_c := 1
                size_t := 1
                physical_size_x := pixel_size_um
                physical_size_y := pixel_size_um
                channels := [{ id := "Channel:0:0", name := "channel_0",
                               samples_per_pixel := 1 }]
                id := "Pixels:0" } } ] }
    let first_page : TiffPage :=
      { data := pyramid.headD []
        subifds := some (pyramid.length - 1)
        photometric := "minisblack"
        tile := (tile_size, tile_size)
        compression := compression
        description := some ome }
    let sub_pages := (pyramid.drop 1).map fun level =>
      { data := level
        subifds := none
        photometric := "minisblack"
        tile := (tile_size, tile_size)
        compression := compression
        description := none : TiffPage }
    { pyramid := pyramid
      adjusted_pixel_spacing := adjusted_pixel_spacing
      pixel_size_um := pixel_size_um
      ome := ome
      bigtiff := true
      pages := first_page :: sub_pages }

/-! ## BigDataViewer XML (`create_bdv_xml`) -/

/-- The SpimData XML document emitted by `create_bdv_xml`, field by field. -/
structure BdvXml where
  version : String
  base_path_type : String
  base_path : String
  hdf5_type : String
  hdf5 : String
  setup_id : Nat
  setup_name : String
  size_x : Nat
  size_y : Nat
  size_z : Nat
  voxel_unit : String
  voxel_size_x : ℚ
  voxel_size_y : ℚ
  voxel_size_z : ℚ
  setup_channel_attr : Nat
  channel_id : Nat
  channel_name : String
  timepoints_type : String
  timepoints_first : Nat
  timepoints_last : Nat
  registration_timepoint : Nat
  registration_setup : Nat
  transform_type : String
  affine : List ℚ
deriving DecidableEq

/-- Source translation of `create_bdv_xml(xml_path, h5_filename,
image_shape, pixel_size_um)`; `image_shape = (rows, cols)`. -/
def create_bdv_xml (h5_filename : String) (image_shape : Nat × Nat)
    (pixel_size_um : ℚ) : BdvXml :=
  let pixel_size_x := pixel_size_um
  let pixel_size_y := pixel_size_um
  let pixel_size_z := pixel_size_um
  { version := "0.2"
    base_path_type := "relative"
    base_path := "."
    hdf5_type := "relative"
    hdf5 := h5_filename
    setup_id := 0
    setup_name := "channel 1"
    size_x := image_shape.2
    size_y := image_shape.1
    size_z := 1
    voxel_unit := "μm"
    voxel_size_x := pixel_size_x
    voxel_size_y := pixel_size_y
    voxel_size_z := pixel_size_z
    setup_channel_attr := 1
    channel_id := 1
    channel_name := "1"
    timepoints_type := "range"
    timepoints_first := 0
    timepoints_last := 0
    registration_timepoint := 0
    registration_setup := 0
    transform_type := "affine"
    affine := [pixel_size_x, 0, 0, 0,
               0, pixel_size_y, 0, 0,
               0, 0, pixel_size_z, 0] }

/-! ## HDF5/BDV emitter (`create_hdf5_pyramid`) -/

/-- A 1-D coordinate-scale dataset with its HDF5 attributes. -/
structure ScaleDataset where
  values : List ℚ
  units : String
  name : String
deriving DecidableEq, Inhabited

/-- One resolution level: its dataset, the two created scale datasets, and
the dimension bindings (`dset.dims[0/1]`). -/
structure H5Level where
  data : Image
  compression : String
  chunks : Bool
  x_scale : ScaleDataset
  y_scale : ScaleDataset
  dim0_scale : ScaleDataset
  dim1_scale : ScaleDataset
  dim0_label : String
  dim1_label : String
deriving Inhabited

/-- The written `.h5` file plus its companion `.xml`. -/
structure H5Output where
  res0 : Image
  res1 : Image
  res2 : Image
  levels : List H5Level
  attr_source : String
  attr_pixel_size_nm : ℚ
  attr_pixel_size_um : ℚ
  attr_unit : String
  xml : BdvXml

/-- Source translation of `create_hdf5_pyramid(mrc_base_path, output_path,
mag, compression='gzip')`.  A 3-D stack keeps only its first plane
(`base = base[0]`); indexing an empty stack raises (numpy `IndexError`). -/
def create_hdf5_pyramid (base_raster : Raster) (output_name : String)
    (mag : ℚ) (compression : String) : Except String H5Output :=
  match base_raster with
  | .d3 [] => .error "index 0 is out of bounds"
  | .d3 (p :: _) => .ok (create_hdf5_planes p output_name mag compression)
  | .d2 img => .ok (create_hdf5_planes img output_name mag compression)
where
  create_hdf5_planes (base : Image) (output_name : String) (mag : ℚ)
      (compression : String) : H5Output :=
    let half := stride2d 2 base
    let quarter := stride2d 4 base
    let pixel_size_nm := mag / 10
    let pixel_size_um := pixel_size_nm / 1000
    let mkLevel := fun (i : Nat) (dset : Image) =>
      let scale_factor : ℚ := 2 ^ i
      let current_pixel_size := pixel_size_nm * scale_factor
      let x_scale : ScaleDataset :=
        { values := (List.range (width dset)).map fun (j : Nat) => (j : ℚ) * current_pixel_size
          units := "nm"
          name := "x" }
      let y_scale : ScaleDataset :=
        { values := (List.range dset.length).map fun (j : Nat) => (j : ℚ) * current_pixel_size
          units := "nm"
          name := "y" }
      { data := dset
        compression := compression
        chunks := true
        x_scale := x_scale
        y_scale := y_scale
        dim0_scale := y_scale
        dim1_scale := x_scale
        dim0_label := "y"
        dim1_label := "x" : H5Level }
    { res0 := base
      res1 := half
      res2 := quarter
      levels := [mkLevel 0 base, mkLevel 1 half, mkLevel 2 quarter]
      attr_source := "SerialEM .mdoc"
      attr_pixel_size_nm := pixel_size_nm
      attr_pixel_size_um := pixel_size_um
      attr_unit := "nm"
      xml := create_bdv_xml output_name (base.length, width base) pixel_size_um }

/-! ## Metadata reader (`get_mag`) -/

/-- A Python text line, modelled as its character list: all functions on
it are structurally recursive, so concrete runs reduce in the kernel. -/
abbrev PyStr := List Char

/-- Python whitespace, the characters `str.strip()` removes. -/
def pySpace (c : Char) : Bool :=
  c == ' ' || c == '\t' || c == '\n' || c == '\r' || c == '\x0b' || c == '\x0c'

/-- Python `str.strip()`. -/
def pyStrip (s : PyStr) : PyStr :=
  ((s.dropWhile pySpace).reverse.dropWhile pySpace).reverse

/-- Whether `pat` is an initial segment of `s`. -/
def startsWithL : PyStr → PyStr → Bool
  | [], _ => true
  | _ :: _, [] => false
  | p :: ps, c :: cs => p == c && startsWithL ps cs

/-- Python substring test `pat in s`. -/
def containsSubstr : PyStr → PyStr → Bool
  | [], pat => pat.isEmpty
  | c :: rest, pat => startsWithL pat (c :: rest) || containsSubstr rest pat

/-- Fueled scan behind `splitOnL`; fuel `s.length` suffices for a
nonempty separator. -/
def splitOnFuel (sep : PyStr) : Nat → PyStr → PyStr → List PyStr
  | _, [], acc => [acc.reverse]
  | 0, s, acc => [acc.reverse ++ s]
  | fuel + 1, c :: cs, acc =>
    if startsWithL sep (c :: cs) then
      acc.reverse :: splitOnFuel sep fuel ((c :: cs).drop sep.length) []
    else splitOnFuel sep fuel cs (c :: acc)

/-- Python `s.split(sep)`: split on every non-overlapping occurrence of
`sep`, left to right (Python raises on an empty separator). -/
def splitOnL (s sep : PyStr) : List PyStr :=
  if sep.isEmpty then [s] else splitOnFuel sep s.length s []

/-- The key token `"PixelSpacing"` scanned for by `get_mag`. -/
def pixelSpacingKey : PyStr := ['P', 'i', 'x', 'e', 'l', 'S', 'p', 'a', 'c', 'i', 'n', 'g']

/-- The separator `" = "` `get_mag` splits each matching line on. -/
def eqSep : PyStr := [' ', '=', ' ']

/-- Value of a digit string, most significant first. -/
def digitsVal (cs : List Char) : Nat :=
  cs.foldl (fun acc c => acc * 10 + (c.toNat - 48)) 0

/-- Modelled from the spec: Python's built-in `float()` conversion (code
not in the repository; the spec says "parse the right-hand side … as a
floating-point number").  Modelled for plain decimal literals
`[+-]digits[.digits]` with at least one digit, the only shapes the claims
exercise; exotic accepted forms (exponents, `inf`, `nan`) are out of
scope.  `none` is Python's `ValueError`. -/
def pyFloat (s : PyStr) : Option ℚ :=
  let cs := s
  let signed : Bool × List Char :=
    match cs with
    | '-' :: rest => (true, rest)
    | '+' :: rest => (false, rest)
    | _ => (false, cs)
  let body := signed.2
  let ip := body.takeWhile Char.isDigit
  let rest := body.drop ip.length
  let val : Option ℚ :=
    match rest with
    | [] =>
      if ip.isEmpty then none
      else some (digitsVal ip)
    | '.' :: fp =>
      if fp.all Char.isDigit && !(ip.isEmpty && fp.isEmpty) then
        some ((digitsVal ip : ℚ) + (digitsVal fp : ℚ) / (10 : ℚ) ^ fp.length)
      else none
    | _ => none
  val.map fun v => if signed.1 then -v else v

/-- Outcome of `get_mag`: the returned value together with which of the
three reports the source printed.  The Python function returns the float
or `None`; which failure occurred is reported on the log (`print`). -/
inductive MagResult where
  | found (v : ℚ)
  | unparsable
  | noKey
  | fileNotFound
deriving DecidableEq

/-- Return value of `get_mag` (`float` or `None`). -/
def MagResult.retval : MagResult → Option ℚ
  | .found v => some v
  | _ => none

/-- The scanning loop of `get_mag`: for each line containing
`"PixelSpacing"`, split the stripped line on `" = "`; with exactly two
parts, return the parsed value or fail as unparsable; otherwise keep
scanning.  No matching line at all reports `noKey`. -/
def get_mag_scan : List PyStr → MagResult
  | [] => .noKey
  | linha :: rest =>
    if containsSubstr linha pixelSpacingKey then
      let partes := splitOnL (pyStrip linha) eqSep
      if partes.length = 2 then
        match pyFloat (pyStrip (partes.getD 1 [])) with
        | some v => .found v
        | none => .unparsable
      else get_mag_scan rest
    else get_mag_scan rest

/-- Source translation of `get_mag(ficheiro_mdoc)`: `none` stands for a
missing descriptor file (the `FileNotFoundError` handler), `some lines`
for the file's lines. -/
def get_mag (file : Option (List PyStr)) : MagResult :=
  match file with
  | none => .fileNotFound
  | some lines => get_mag_scan lines

/-! ## Batch orchestrator (`process_mrc_file`, `run_batch`) -/

/-- The numpy shape of the plane used for the size check (`image_data[0]`
if 3-D); `none` is the `IndexError` on an empty stack. -/
def sizePlane : Raster → Option (Nat × Nat)
  | .d2 img => some (img.length, width img)
  | .d3 [] => none
  | .d3 (p :: _) => some (p.length, width p)

/-- The environment one `.mrc` file is processed in: whether its `.mdoc`
exists and what it holds, the exit status of the two external stitcher
commands, whether the blended file appeared, its contents, and the GUI's
H5 checkbox. -/
structure World where
  mdoc_exists : Bool
  mdoc_lines : List PyStr
  extract_ok : Bool
  blend_ok : Bool
  blended_exists : Bool
  blended : Raster
  create_h5 : Bool

/-- Files on disk relevant to one input, after processing: the stitcher's
intermediate artifacts and the emitted outputs (`reduced_tif` records the
reduction factor used). -/
structure FileSet where
  montage_plf : Bool
  montage_edges : Bool
  blended : Bool
  ome_tif : Bool
  reduced_tif : Option Nat
  h5 : Bool
  xml : Bool
deriving DecidableEq

/-- No files yet. -/
def emptyFS : FileSet :=
  { montage_plf := false, montage_edges := false, blended := false,
    ome_tif := false, reduced_tif := none, h5 := false, xml := false }

/-- The cleanup block at the end of the `try`: removes `montage_plf*`,
`MONTAGE_EDGES*` and the blended `.mrc`. -/
def cleanupFS (fs : FileSet) : FileSet :=
  { fs with montage_plf := false, montage_edges := false, blended := false }

/-- Source translation of `process_mrc_file(mrc_file)`, returning the
success flag and the files left on disk.  A failing external command
(modelled by `extract_ok`/`blend_ok`) raises after its artifacts are
recorded as present; emitter failures are the `Except.error` cases of the
emitter models; every raise lands in the `except` handler, which returns
`False` without running the cleanup block. -/
def process_mrc_file (wd : World) : Bool × FileSet :=
  if !wd.mdoc_exists then (false, emptyFS)
  else match (get_mag (some wd.mdoc_lines)).retval with
    | none => (false, emptyFS)
    | some mag =>
      let fs1 : FileSet := { emptyFS with montage_plf := true }
      if !wd.extract_ok then (false, fs1)
      else
        let fs2 := { fs1 with montage_edges := true, blended := wd.blended_exists }
        if !wd.blend_ok then (false, fs2)
        else if !wd.blended_exists then (false, fs2)
        else match sizePlane wd.blended with
          | none => (false, fs2)
          | some shape =>
            let total_pixels := shape.1 * shape.2
            let is_large := 2000000000 < total_pixels
            match create_ome_bigtiff_pyramid "input.mrc" wd.blended mag 512 256 "deflate" 1 with
            | .error _ => (false, fs2)
            | .ok _ =>
              let fs3 := { fs2 with ome_tif := true }
              if is_large then
                if wd.create_h5 then
                  match create_hdf5_pyramid wd.blended "input.h5" mag "gzip" with
                  | .error _ => (false, fs3)
                  | .ok _ => (true, cleanupFS { fs3 with h5 := true, xml := true })
                else
                  let reduction_factor := calculate_reduction_factor shape 1000000000
                  match create_ome_bigtiff_pyramid "input.mrc" wd.blended mag 512 256
                      "deflate" reduction_factor with
                  | .error _ => (false, fs3)
                  | .ok _ =>
                    (true, cleanupFS { fs3 with reduced_tif := some reduction_factor })
              else (true, cleanupFS fs3)

/-- Source translation of the loop in `run_batch`: every file is processed
in turn whatever the previous results; returns (number of successes,
number of files processed). -/
def run_batch : List World → Nat × Nat
  | [] => (0, 0)
  | wd :: rest =>
    let ok := (process_mrc_file wd).1
    let r := run_batch rest
    ((if ok then 1 else 0) + r.1, 1 + r.2)

/-! ## Concrete inputs used by witnesses and counterexamples -/

/-- A descriptor line `"PixelSpacing 1.5"`: contains the key but no
`" = "` separator, so the source's split yields one part and the scan
moves on. -/
def mdocLineNoSep : PyStr :=
  ['P', 'i', 'x', 'e', 'l', 'S', 'p', 'a', 'c', 'i', 'n', 'g', ' ', '1', '.', '5']

/-- A descriptor line `"PixelSpacing = 2"`. -/
def mdocLineGood : PyStr :=
  ['P', 'i', 'x', 'e', 'l', 'S', 'p', 'a', 'c', 'i', 'n', 'g', ' ', '=', ' ', '2']

/-- A descriptor line `"PixelSpacing = xx"`: key and separator present,
value not numeric. -/
def mdocLineBad : PyStr :=
  ['P', 'i', 'x', 'e', 'l', 'S', 'p', 'a', 'c', 'i', 'n', 'g', ' ', '=', ' ', 'x', 'x']

/-- A 3×3 all-zero plane. -/
def img33 : Image := [[0, 0, 0], [0, 0, 0], [0, 0, 0]]

/-- A 1 × 2000000001 plane: more than 2·10⁹ pixels. -/
def hugeImage : Image := [List.replicate 2000000001 0]

/-- A large-image world: descriptor present and parsable, both stitcher
commands succeed, the blended raster is `hugeImage`, H5 creation off. -/
def largeWorld : World :=
  { mdoc_exists := true, mdoc_lines := [mdocLineGood], extract_ok := true,
    blend_ok := true, blended_exists := true, blended := .d2 hugeImage,
    create_h5 := false }

/-- A small-image world on which processing succeeds end to end. -/
def smallWorld : World :=
  { mdoc_exists := true, mdoc_lines := [mdocLineGood], extract_ok := true,
    blend_ok := true, blended_exists := true, blended := .d2 [[0]],
    create_h5 := false }

/-! ## Claim theorems -/

/-- C1 (amended): for every width, height and positive budget `B`, the
reduction policy returns 1 when `w*h ≤ B`; otherwise it returns
`f = ⌈√(w*h/B)⌉`, the least factor with `w*h ≤ f²·B` — so the un-rounded
subsampled pixel count `w*h/f²` is within budget and `f-1` would violate
that bound.  (The claim's rounded count `⌈w/f⌉·⌈h/f⌉ ≤ B` fails, see the
counterexample.) -/
theorem calculate_reduction_factor_spec (h w B : Nat) (hB : 1 ≤ B) :
    (h * w ≤ B → calculate_reduction_factor (h, w) B = 1) ∧
    (B < h * w →
      2 ≤ calculate_reduction_factor (h, w) B ∧
      h * w ≤ calculate_reduction_factor (h, w) B * calculate_reduction_factor (h, w) B * B ∧
      (calculate_reduction_factor (h, w) B - 1) * (calculate_reduction_factor (h, w) B - 1) * B
        < h * w) := by
  constructor
  · intro hle
    simp [calculate_reduction_factor, hle]
  · intro hlt
    have hnle : ¬(h * w ≤ B) := by omega
    have hcrf : calculate_reduction_factor (h, w) B =
        ceilSqrt ((h * w + B - 1) / B) := by
      simp [calculate_reduction_factor, hnle]
    rw [hcrf]
    set q := (h * w + B - 1) / B with hq_def
    set f := ceilSqrt q with hf_def
    have h1 : q ≤ f * f := (ceilSqrt_le_iff q f).mp (Nat.le_refl f)
    have h2 : h * w ≤ B * (f * f) := (ceilDiv_le_iff (h * w) B (f * f) hB).mp h1
    have h2' : h * w ≤ f * f * B := by
      rw [Nat.mul_comm (f * f) B]
      exact h2
    have h3 : 2 ≤ f := by
      by_contra hc
      have hle1 : f ≤ 1 := by omega
      have hq1 : q ≤ 1 * 1 := (ceilSqrt_le_iff q 1).mp hle1
      have : h * w ≤ B * (1 * 1) := (ceilDiv_le_iff (h * w) B (1 * 1) hB).mp hq1
      omega
    refine ⟨h3, h2', ?_⟩
    by_contra hc
    have hc' : h * w ≤ (f - 1) * (f - 1) * B := by omega
    have hc'' : h * w ≤ B * ((f - 1) * (f - 1)) := by
      rw [Nat.mul_comm B ((f - 1) * (f - 1))]
      exact hc'
    have hq : q ≤ (f - 1) * (f - 1) :=
      (ceilDiv_le_iff (h * w) B ((f - 1) * (f - 1)) hB).mpr hc''
    have : f ≤ f - 1 := (ceilSqrt_le_iff q (f - 1)).mpr hq
    omega

/-- C1 witness: the amended theorem applied at a 50000×50000 image and
the 10⁹ budget (the spec's Scenario 2 parameters). -/
theorem calculate_reduction_factor_spec_witness :
    (50000 * 50000 ≤ 1000000000 →
      calculate_reduction_factor (50000, 50000) 1000000000 = 1) ∧
    (1000000000 < 50000 * 50000 →
      2 ≤ calculate_reduction_factor (50000, 50000) 1000000000 ∧
      50000 * 50000 ≤ calculate_reduction_factor (50000, 50000) 1000000000 *
        calculate_reduction_factor (50000, 50000) 1000000000 * 1000000000 ∧
      (calculate_reduction_factor (50000, 50000) 1000000000 - 1) *
        (calculate_reduction_factor (50000, 50000) 1000000000 - 1) * 1000000000
        < 50000 * 50000) :=
  calculate_reduction_factor_spec 50000 50000 1000000000 (by norm_num)

/-- C1 counterexample: at a 3×3 image with budget 3 the policy returns
`f = 2`, yet the stride-2 subsampled image has `⌈3/2⌉·⌈3/2⌉ = 4 > 3`
pixels — the claimed bound `⌈w/f⌉·⌈h/f⌉ ≤ B` does not hold. -/
theorem calculate_reduction_factor_counterexample :
    calculate_reduction_factor (3, 3) 3 = 2 ∧
    (stride2d 2 img33).length * width (stride2d 2 img33) = 4 ∧
    ¬((stride2d 2 img33).length * width (stride2d 2 img33) ≤ 3) := by
  refine ⟨?_, by decide, by decide⟩
  have hs : Nat.sqrt 3 = 1 := (Nat.eq_sqrt.mpr (by norm_num)).symm
  simp [calculate_reduction_factor, ceilSqrt, hs]

/-- C2: for every rectangular 2-D base image and threshold `min_size ≥ 1`,
the pyramid's level 0 is the base itself; each later level has both
dimensions equal to its predecessor's halved (floor); generation continues
past a level exactly while that level satisfies `min(dims) ≥ 2·min_size`
(so it stops exactly when the guard first fails); the base level is always
present; and the level count is monotonically non-increasing in the
threshold. -/
theorem create_pyramid_spec (base : Image) (w m m' : Nat)
    (hrect : rect w base) (hm : 1 ≤ m) (hmm : m ≤ m') :
    (create_pyramid m base).headD [] = base ∧
    (∀ k, k + 1 < (create_pyramid m base).length →
      ((create_pyramid m base).getD (k + 1) []).length =
        ((create_pyramid m base).getD k []).length / 2 ∧
      width ((create_pyramid m base).getD (k + 1) []) =
        width ((create_pyramid m base).getD k []) / 2) ∧
    (∀ k, k < (create_pyramid m base).length →
      (k + 1 < (create_pyramid m base).length ↔
        m * 2 ≤ minDim ((create_pyramid m base).getD k []))) ∧
    1 ≤ (create_pyramid m base).length ∧
    (create_pyramid m' base).length ≤ (create_pyramid m base).length := by
  have hchain : create_pyramid m base = base :: pyramid_loop m base := rfl
  refine ⟨rfl, ?_, ?_, by simp [create_pyramid], ?_⟩
  · intro k hk
    rw [hchain] at hk ⊢
    have hsucc := chain_succ_aux m (minDim base) base (Nat.le_refl _) k hk
    have hguard := (chain_guard_aux m hm (minDim base) base (Nat.le_refl _) k
      (by omega)).mpr
    have hguard' := (chain_guard_aux m hm (minDim base) base (Nat.le_refl _) k
      (by omega)).mp hk
    have hlev := chain_levels_aux m (minDim base) base w (Nat.le_refl _) hrect k
      (by omega)
    have h2 : 2 ≤ minDim ((base :: pyramid_loop m base).getD k []) := by omega
    have hkne : (base :: pyramid_loop m base).getD k [] ≠ [] := by
      intro he
      rw [he] at h2
      simp [minDim, width] at h2
    have hwk : width ((base :: pyramid_loop m base).getD k []) = w / 2 ^ k :=
      rect_width _ _ hlev.1 hkne
    have hlen2 : 2 ≤ ((base :: pyramid_loop m base).getD k []).length := by
      have := h2
      simp only [minDim] at this
      omega
    constructor
    · rw [hsucc, pyramid_reduce_length]
    · rw [hsucc]
      have hrk : rect (w / 2 ^ k / 2)
          (pyramid_reduce ((base :: pyramid_loop m base).getD k [])) :=
        pyramid_reduce_rect _ _ hlev.1
      have hne : pyramid_reduce ((base :: pyramid_loop m base).getD k []) ≠ [] := by
        have hlen : (pyramid_reduce ((base :: pyramid_loop m base).getD k [])).length =
            ((base :: pyramid_loop m base).getD k []).length / 2 :=
          pyramid_reduce_length _
        intro he
        rw [he] at hlen
        simp only [List.length_nil] at hlen
        omega
      rw [rect_width _ _ hrk hne, hwk]
  · intro k hk
    rw [hchain] at hk ⊢
    exact chain_guard_aux m hm (minDim base) base (Nat.le_refl _) k hk
  · have hmono := pyramid_loop_mono_aux m m' hm hmm (minDim base) base (Nat.le_refl _)
    simp only [create_pyramid, List.length_cons]
    omega

/-- C2 witness: the pyramid theorem applied at a concrete 2×2 base with
thresholds 1 and 2. -/
theorem create_pyramid_spec_witness :
    (create_pyramid 1 [[0, 0], [0, 0]]).headD [] = [[0, 0], [0, 0]] ∧
    (∀ k, k + 1 < (create_pyramid 1 [[0, 0], [0, 0]]).length →
      ((create_pyramid 1 [[0, 0], [0, 0]]).getD (k + 1) []).length =
        ((create_pyramid 1 [[0, 0], [0, 0]]).getD k []).length / 2 ∧
      width ((create_pyramid 1 [[0, 0], [0, 0]]).getD (k + 1) []) =
        width ((create_pyramid 1 [[0, 0], [0, 0]]).getD k []) / 2) ∧
    (∀ k, k < (create_pyramid 1 [[0, 0], [0, 0]]).length →
      (k + 1 < (create_pyramid 1 [[0, 0], [0, 0]]).length ↔
        1 * 2 ≤ minDim ((create_pyramid 1 [[0, 0], [0, 0]]).getD k []))) ∧
    1 ≤ (create_pyramid 1 [[0, 0], [0, 0]]).length ∧
    (create_pyramid 2 [[0, 0], [0, 0]]).length ≤ (create_pyramid 1 [[0, 0], [0, 0]]).length :=
  create_pyramid_spec [[0, 0], [0, 0]] 2 1 2
    (show ∀ r ∈ ([[0, 0], [0, 0]] : Image), r.length = 2 by decide)
    (by decide) (by decide)

/-- C3: the OME metadata document declares one image whose physical pixel
size (X and Y alike) is `angstrom · f · 10⁻⁴` micrometers for every
reduction stride `f ≥ 1`, whose `size_x`/`size_y` are the pyramid's
level-0 dimensions, with one channel and `size_z = size_c = size_t = 1`;
and on a 2-D raster the emitter returns exactly this document. -/
theorem create_ome_metadata_spec (nm : String) (img : Image) (a : ℚ)
    (m t f : Nat) (cmp : String) (hf : 1 ≤ f) :
    (create_ome_bigtiff_pyramid.create_ome_planes nm img a m t cmp f).ome.images.length = 1 ∧
    (∀ i ∈ (create_ome_bigtiff_pyramid.create_ome_planes nm img a m t cmp f).ome.images,
      i.pixels.physical_size_x = a * (f : ℚ) * (1 / 10000) ∧
      i.pixels.physical_size_y = a * (f : ℚ) * (1 / 10000) ∧
      i.pixels.size_x = width
        ((create_ome_bigtiff_pyramid.create_ome_planes nm img a m t cmp f).pyramid.getD 0 []) ∧
      i.pixels.size_y =
        ((create_ome_bigtiff_pyramid.create_ome_planes nm img a m t cmp f).pyramid.getD 0 []).length ∧
      i.pixels.size_z = 1 ∧ i.pixels.size_c = 1 ∧ i.pixels.size_t = 1 ∧
      i.pixels.channels.length = 1) ∧
    create_ome_bigtiff_pyramid nm (.d2 img) a m t cmp f =
      .ok (create_ome_bigtiff_pyramid.create_ome_planes nm img a m t cmp f) := by
  refine ⟨rfl, ?_, rfl⟩
  intro i hi
  simp only [create_ome_bigtiff_pyramid.create_ome_planes, List.mem_singleton] at hi
  subst hi
  have hphys : (if 1 < f then a * (f : ℚ) else a) * (1 / 10000) =
      a * (f : ℚ) * (1 / 10000) := by
    split_ifs with h1
    · rfl
    · have hf1 : f = 1 := by omega
      subst hf1
      norm_num
  exact ⟨hphys, hphys, rfl, rfl, rfl, rfl, rfl, rfl⟩

/-- C3 witness: the metadata theorem applied at a 1×1 image, calibration
2 Å, stride 1, the source defaults `min_size=512`, `tile_size=256`,
`compression='deflate'`. -/
theorem create_ome_metadata_spec_witness :
    (create_ome_bigtiff_pyramid.create_ome_planes "input.mrc" [[0]] 2 512 256 "deflate" 1).ome.images.length = 1 ∧
    (∀ i ∈ (create_ome_bigtiff_pyramid.create_ome_planes "input.mrc" [[0]] 2 512 256 "deflate" 1).ome.images,
      i.pixels.physical_size_x = 2 * ((1 : Nat) : ℚ) * (1 / 10000) ∧
      i.pixels.physical_size_y = 2 * ((1 : Nat) : ℚ) * (1 / 10000) ∧
      i.pixels.size_x = width
        ((create_ome_bigtiff_pyramid.create_ome_planes "input.mrc" [[0]] 2 512 256 "deflate" 1).pyramid.getD 0 []) ∧
      i.pixels.size_y =
        ((create_ome_bigtiff_pyramid.create_ome_planes "input.mrc" [[0]] 2 512 256 "deflate" 1).pyramid.getD 0 []).length ∧
      i.pixels.size_z = 1 ∧ i.pixels.size_c = 1 ∧ i.pixels.size_t = 1 ∧
      i.pixels.channels.length = 1) ∧
    create_ome_bigtiff_pyramid "input.mrc" (.d2 [[0]]) 2 512 256 "deflate" 1 =
      .ok (create_ome_bigtiff_pyramid.create_ome_planes "input.mrc" [[0]] 2 512 256 "deflate" 1) :=
  create_ome_metadata_spec "input.mrc" [[0]] 2 512 256 1 "deflate" (by decide)

/-- Element `j` of the coordinate-scale values `range n` scaled by `c`. -/
theorem range_map_getD (n j : Nat) (c : ℚ) (hj : j < n) :
    (((List.range n).map fun (t : Nat) => (t : ℚ) * c).getD j 0) = (j : ℚ) * c := by
  rw [List.getD_eq_getElem?_getD, List.getElem?_map, List.getElem?_range hj]
  rfl

/-- C4: the HDF5 emitter stores exactly the three stride subsamples
(strides 1, 2, 4) of the base plane as `res0`, `res1`, `res2`; each level
`i` carries X/Y coordinate scales whose `j`-th value is
`j · (a/10) · 2^i`, with unit `"nm"` and axis names, the Y scale bound to
axis 0 (rows) and the X scale to axis 1 (columns); and the file records
attributes `source`, `pixel_size_nm = a/10`, `pixel_size_um = (a/10)/1000`
and `unit`. -/
theorem create_hdf5_spec (img : Image) (out : String) (a : ℚ) (cmp : String) :
    (create_hdf5_pyramid.create_hdf5_planes img out a cmp).res0 = img ∧
    (create_hdf5_pyramid.create_hdf5_planes img out a cmp).res1 = stride2d 2 img ∧
    (create_hdf5_pyramid.create_hdf5_planes img out a cmp).res2 = stride2d 4 img ∧
    (create_hdf5_pyramid.create_hdf5_planes img out a cmp).levels.length = 3 ∧
    ((create_hdf5_pyramid.create_hdf5_planes img out a cmp).levels.getD 0 default).data = img ∧
    ((create_hdf5_pyramid.create_hdf5_planes img out a cmp).levels.getD 1 default).data =
      stride2d 2 img ∧
    ((create_hdf5_pyramid.create_hdf5_planes img out a cmp).levels.getD 2 default).data =
      stride2d 4 img ∧
    (∀ i, i < 3 →
      ((create_hdf5_pyramid.create_hdf5_planes img out a cmp).levels.getD i default).x_scale.values.length =
        width ((create_hdf5_pyramid.create_hdf5_planes img out a cmp).levels.getD i default).data ∧
      ((create_hdf5_pyramid.create_hdf5_planes img out a cmp).levels.getD i default).y_scale.values.length =
        ((create_hdf5_pyramid.create_hdf5_planes img out a cmp).levels.getD i default).data.length ∧
      (∀ j, j < ((create_hdf5_pyramid.create_hdf5_planes img out a cmp).levels.getD i default).x_scale.values.length →
        ((create_hdf5_pyramid.create_hdf5_planes img out a cmp).levels.getD i default).x_scale.values.getD j 0 =
          (j : ℚ) * (a / 10) * 2 ^ i) ∧
      (∀ j, j < ((create_hdf5_pyramid.create_hdf5_planes img out a cmp).levels.getD i default).y_scale.values.length →
        ((create_hdf5_pyramid.create_hdf5_planes img out a cmp).levels.getD i default).y_scale.values.getD j 0 =
          (j : ℚ) * (a / 10) * 2 ^ i) ∧
      ((create_hdf5_pyramid.create_hdf5_planes img out a cmp).levels.getD i default).x_scale.units = "nm" ∧
      ((create_hdf5_pyramid.create_hdf5_planes img out a cmp).levels.getD i default).x_scale.name = "x" ∧
      ((create_hdf5_pyramid.create_hdf5_planes img out a cmp).levels.getD i default).y_scale.units = "nm" ∧
      ((create_hdf5_pyramid.create_hdf5_planes img out a cmp).levels.getD i default).y_scale.name = "y" ∧
      ((create_hdf5_pyramid.create_hdf5_planes img out a cmp).levels.getD i default).dim0_scale =
        ((create_hdf5_pyramid.create_hdf5_planes img out a cmp).levels.getD i default).y_scale ∧
      ((create_hdf5_pyramid.create_hdf5_planes img out a cmp).levels.getD i default).dim1_scale =
        ((create_hdf5_pyramid.create_hdf5_planes img out a cmp).levels.getD i default).x_scale ∧
      ((create_hdf5_pyramid.create_hdf5_planes img out a cmp).levels.getD i default).dim0_label = "y" ∧
      ((create_hdf5_pyramid.create_hdf5_planes img out a cmp).levels.getD i default).dim1_label = "x") ∧
    (create_hdf5_pyramid.create_hdf5_planes img out a cmp).attr_source = "SerialEM .mdoc" ∧
    (create_hdf5_pyramid.create_hdf5_planes img out a cmp).attr_pixel_size_nm = a / 10 ∧
    (create_hdf5_pyramid.create_hdf5_planes img out a cmp).attr_pixel_size_um = (a / 10) / 1000 ∧
    (create_hdf5_pyramid.create_hdf5_planes img out a cmp).attr_unit = "nm" ∧
    create_hdf5_pyramid (.d2 img) out a cmp =
      .ok (create_hdf5_pyramid.create_hdf5_planes img out a cmp) := by
  refine ⟨rfl, rfl, rfl, rfl, rfl, rfl, rfl, ?_, rfl, rfl, rfl, rfl, rfl⟩
  intro i hi
  have hval : ∀ (dset : Image) (sf : ℚ) (j : Nat),
      j < ((List.range (width dset)).map fun (u : Nat) => (u : ℚ) * (a / 10 * sf)).length →
      (((List.range (width dset)).map fun (u : Nat) => (u : ℚ) * (a / 10 * sf)).getD j 0) =
        (j : ℚ) * (a / 10) * sf := by
    intro dset sf j hj
    rw [List.length_map, List.length_range] at hj
    rw [range_map_getD _ _ _ hj]
    ring
  have hvalY : ∀ (dset : Image) (sf : ℚ) (j : Nat),
      j < ((List.range dset.length).map fun (u : Nat) => (u : ℚ) * (a / 10 * sf)).length →
      (((List.range dset.length).map fun (u : Nat) => (u : ℚ) * (a / 10 * sf)).getD j 0) =
        (j : ℚ) * (a / 10) * sf := by
    intro dset sf j hj
    rw [List.length_map, List.length_range] at hj
    rw [range_map_getD _ _ _ hj]
    ring
  interval_cases i
  · refine ⟨by simp [create_hdf5_pyramid.create_hdf5_planes],
      by simp [create_hdf5_pyramid.create_hdf5_planes], ?_, ?_,
      rfl, rfl, rfl, rfl, rfl, rfl, rfl, rfl⟩
    · intro j hj
      have hj' : j < width img := by
        simpa [create_hdf5_pyramid.create_hdf5_planes] using hj
      have := hval img (2 ^ 0) j (by simpa using hj')
      simpa [create_hdf5_pyramid.create_hdf5_planes] using this
    · intro j hj
      have hj' : j < img.length := by
        simpa [create_hdf5_pyramid.create_hdf5_planes] using hj
      have := hvalY img (2 ^ 0) j (by simpa using hj')
      simpa [create_hdf5_pyramid.create_hdf5_planes] using this
  · refine ⟨by simp [create_hdf5_pyramid.create_hdf5_planes],
      by simp [create_hdf5_pyramid.create_hdf5_planes], ?_, ?_,
      rfl, rfl, rfl, rfl, rfl, rfl, rfl, rfl⟩
    · intro j hj
      have hj' : j < width (stride2d 2 img) := by
        simpa [create_hdf5_pyramid.create_hdf5_planes] using hj
      have := hval (stride2d 2 img) (2 ^ 1) j (by simpa using hj')
      simpa [create_hdf5_pyramid.create_hdf5_planes] using this
    · intro j hj
      have hj' : j < (stride2d 2 img).length := by
        simpa [create_hdf5_pyramid.create_hdf5_planes] using hj
      have := hvalY (stride2d 2 img) (2 ^ 1) j (by simpa using hj')
      simpa [create_hdf5_pyramid.create_hdf5_planes] using this
  · refine ⟨by simp [create_hdf5_pyramid.create_hdf5_planes],
      by simp [create_hdf5_pyramid.create_hdf5_planes], ?_, ?_,
      rfl, rfl, rfl, rfl, rfl, rfl, rfl, rfl⟩
    · intro j hj
      have hj' : j < width (stride2d 4 img) := by
        simpa [create_hdf5_pyramid.create_hdf5_planes] using hj
      have := hval (stride2d 4 img) (2 ^ 2) j (by simpa using hj')
      simpa [create_hdf5_pyramid.create_hdf5_planes] using this
    · intro j hj
      have hj' : j < (stride2d 4 img).length := by
        simpa [create_hdf5_pyramid.create_hdf5_planes] using hj
      have := hvalY (stride2d 4 img) (2 ^ 2) j (by simpa using hj')
      simpa [create_hdf5_pyramid.create_hdf5_planes] using this

/-- C9: the BigDataViewer XML references the HDF5 file by relative path,
declares one view setup with pixel dimensions `(w, h, 1)`, an isotropic
voxel size `(p, p, p)`, a single channel attribute, the timepoint range
`[0, 0]`, and one affine registration matrix that is diagonal with every
diagonal entry `p`; and the HDF5 emitter builds it from the base plane's
shape and the µm pixel size. -/
theorem create_bdv_xml_spec (h5name : String) (shape : Nat × Nat) (p : ℚ) :
    (create_bdv_xml h5name shape p).hdf5 = h5name ∧
    (create_bdv_xml h5name shape p).hdf5_type = "relative" ∧
    (create_bdv_xml h5name shape p).size_x = shape.2 ∧
    (create_bdv_xml h5name shape p).size_y = shape.1 ∧
    (create_bdv_xml h5name shape p).size_z = 1 ∧
    (create_bdv_xml h5name shape p).voxel_size_x = p ∧
    (create_bdv_xml h5name shape p).voxel_size_y = p ∧
    (create_bdv_xml h5name shape p).voxel_size_z = p ∧
    (create_bdv_xml h5name shape p).setup_channel_attr = 1 ∧
    (create_bdv_xml h5name shape p).channel_id = 1 ∧
    (create_bdv_xml h5name shape p).timepoints_first = 0 ∧
    (create_bdv_xml h5name shape p).timepoints_last = 0 ∧
    (create_bdv_xml h5name shape p).transform_type = "affine" ∧
    (create_bdv_xml h5name shape p).affine.length = 12 ∧
    (∀ r, r < 3 → ∀ c, c < 4 →
      (create_bdv_xml h5name shape p).affine.getD (r * 4 + c) 0 =
        if r = c then p else 0) ∧
    (∀ (img : Image) (out : String) (a : ℚ) (cmp : String),
      (create_hdf5_pyramid.create_hdf5_planes img out a cmp).xml =
        create_bdv_xml out (img.length, width img) (a / 10 / 1000)) := by
  refine ⟨rfl, rfl, rfl, rfl, rfl, rfl, rfl, rfl, rfl, rfl, rfl, rfl, rfl, rfl, ?_,
    fun img out a cmp => rfl⟩
  intro r hr c hc
  interval_cases r <;> interval_cases c <;> simp [create_bdv_xml]

/-- C8 (amended): the OME-TIFF emitter raises `ValueError` exactly when
the raster is not 2-D — a 3-D stack is rejected, not reduced — while the
HDF5 emitter accepts a 3-D stack and uses only its first plane; a 2-D
raster is accepted by both. -/
theorem dimensionality_spec :
    (∀ (nm : String) (img : Image) (a : ℚ) (m t f : Nat) (cmp : String),
      create_ome_bigtiff_pyramid nm (.d2 img) a m t cmp f =
        .ok (create_ome_bigtiff_pyramid.create_ome_planes nm img a m t cmp f)) ∧
    (∀ (nm : String) (stack : List Image) (a : ℚ) (m t f : Nat) (cmp : String),
      create_ome_bigtiff_pyramid nm (.d3 stack) a m t cmp f =
        .error "Image must be 2D.") ∧
    (∀ (img : Image) (rest : List Image) (out : String) (a : ℚ) (cmp : String),
      create_hdf5_pyramid (.d3 (img :: rest)) out a cmp =
        create_hdf5_pyramid (.d2 img) out a cmp) :=
  ⟨fun _ _ _ _ _ _ _ => rfl, fun _ _ _ _ _ _ _ => rfl, fun _ _ _ _ _ => rfl⟩

/-- C8 counterexample: a 3-D single-plane stack is rejected by the
OME-TIFF emitter with `ValueError("Image must be 2D.")` — it is not
"accepted with only its first plane used" — while the HDF5 emitter
accepts the very same raster. -/
theorem dimensionality_counterexample :
    create_ome_bigtiff_pyramid "input.mrc" (.d3 [[[0]]]) 2 512 256 "deflate" 1 =
      .error "Image must be 2D." ∧
    (create_hdf5_pyramid (.d3 [[[0]]]) "input.h5" 2 "gzip").isOk = true :=
  ⟨rfl, rfl⟩

/-- The scanning loop never reports a missing file. -/
theorem get_mag_scan_ne_fileNotFound (lines : List PyStr) :
    get_mag_scan lines ≠ MagResult.fileNotFound := by
  induction lines with
  | nil => simp [get_mag_scan]
  | cons l rest ih =>
    by_cases hc : containsSubstr l pixelSpacingKey = true
    · by_cases hp : (splitOnL (pyStrip l) eqSep).length = 2
      · simp only [get_mag_scan, hc, if_true, hp]
        cases pyFloat (pyStrip ((splitOnL (pyStrip l) eqSep).getD 1 [])) <;> simp
      · simp only [get_mag_scan, hc, if_true, hp, if_false]
        exact ih
    · simp only [get_mag_scan, hc, if_false]
      exact ih

/-- C6: the Metadata Reader is a total function (it cannot throw); a
missing file yields the distinguished outcome `fileNotFound`, which a
present file never yields; the three failure outcomes are pairwise
distinct, and only `found` carries a return value — absence is reported
distinctly from a parse failure. -/
theorem get_mag_spec :
    get_mag none = MagResult.fileNotFound ∧
    (∀ lines : List PyStr, get_mag (some lines) ≠ MagResult.fileNotFound) ∧
    (∀ v : ℚ, (MagResult.found v).retval = some v) ∧
    MagResult.unparsable.retval = none ∧
    MagResult.noKey.retval = none ∧
    MagResult.fileNotFound.retval = none ∧
    (MagResult.fileNotFound ≠ MagResult.unparsable ∧
      MagResult.fileNotFound ≠ MagResult.noKey ∧
      MagResult.unparsable ≠ MagResult.noKey) :=
  ⟨rfl, fun lines => get_mag_scan_ne_fileNotFound lines, fun _ => rfl, rfl, rfl, rfl,
    by decide, by decide, by decide⟩

/-- A line settles the scan when it contains the key token and its
stripped text splits on `" = "` into exactly two parts. -/
def decidesLine (l : PyStr) : Bool :=
  containsSubstr l pixelSpacingKey && (splitOnL (pyStrip l) eqSep).length == 2

/-- C7 (amended): the result is determined solely by the first matching
line that also splits into exactly two parts on `" = "`: whatever follows
it is ignored, and the result is that line's parse outcome.  (A matching
line without the separator is skipped and scanning continues — see the
counterexample.) -/
theorem get_mag_first_decisive (pre : List PyStr) (l : PyStr) (rest rest' : List PyStr)
    (hpre : ∀ p ∈ pre, decidesLine p = false) (hl : decidesLine l = true) :
    get_mag_scan (pre ++ l :: rest) = get_mag_scan (pre ++ l :: rest') ∧
    get_mag_scan (pre ++ l :: rest) =
      (match pyFloat (pyStrip ((splitOnL (pyStrip l) eqSep).getD 1 [])) with
        | some v => MagResult.found v
        | none => MagResult.unparsable) := by
  have hc : containsSubstr l pixelSpacingKey = true := by
    simp [decidesLine] at hl
    exact hl.1
  have hp : (splitOnL (pyStrip l) eqSep).length = 2 := by
    simp [decidesLine] at hl
    exact hl.2
  induction pre with
  | nil =>
    constructor <;> simp only [List.nil_append, get_mag_scan, hc, if_true, hp]
  | cons p pre ih =>
    have hdp := hpre p (List.mem_cons_self _ _)
    have ih' := ih fun q hq => hpre q (List.mem_cons_of_mem _ hq)
    by_cases hcp : containsSubstr p pixelSpacingKey = true
    · have hlp : ¬((splitOnL (pyStrip p) eqSep).length = 2) := by
        simp [decidesLine, hcp] at hdp
        omega
      simp only [List.cons_append, get_mag_scan, hcp, if_true, hlp, if_false]
      exact ih'
    · have hcp' : containsSubstr p pixelSpacingKey = false := by
        revert hcp
        cases containsSubstr p pixelSpacingKey <;> simp
      simp only [List.cons_append, get_mag_scan, hcp', Bool.false_eq_true, if_false]
      exact ih'

/-- C7 witness: the amended theorem applied with a skipped key-only line
in front of `"PixelSpacing = 2"` and two different tails. -/
theorem get_mag_first_decisive_witness :
    get_mag_scan ([mdocLineNoSep] ++ mdocLineGood :: []) =
      get_mag_scan ([mdocLineNoSep] ++ mdocLineGood :: [mdocLineBad]) ∧
    get_mag_scan ([mdocLineNoSep] ++ mdocLineGood :: []) =
      (match pyFloat (pyStrip ((splitOnL (pyStrip mdocLineGood) eqSep).getD 1 [])) with
        | some v => MagResult.found v
        | none => MagResult.unparsable) :=
  get_mag_first_decisive [mdocLineNoSep] mdocLineGood [] [mdocLineBad]
    (by decide) (by decide)

/-- C7 counterexample: the first line containing `PixelSpacing` has no
`" = "` separator, so it cannot be parsed; the claim says subsequent
occurrences are ignored even then, but the scan continues and the second
occurrence determines the result: `found 2`, not the `noKey` outcome that
the first line alone produces. -/
theorem get_mag_first_line_counterexample :
    get_mag (some [mdocLineNoSep, mdocLineGood]) = MagResult.found 2 ∧
    get_mag (some [mdocLineNoSep]) = MagResult.noKey := by
  decide

/-- Every file of the batch is processed, whatever the earlier results. -/
theorem run_batch_length (ws : List World) : (run_batch ws).2 = ws.length := by
  induction ws with
  | nil => rfl
  | cons wd rest ih =>
    simp only [run_batch, ih, List.length_cons]
    omega

/-- C5: on a stitched 2-D image of more than 2·10⁹ pixels, with the
stitcher succeeding and the descriptor parsable, processing succeeds and:
the unreduced `.ome.tif` is always produced; with H5 creation disabled a
`_reduced.ome.tif` with the reduction factor computed against the 10⁹
budget is produced and no `.h5`; with it enabled an `.h5` + `.xml` pair is
produced instead of the reduced TIFF. -/
theorem process_large_image_spec (wd : World) (img : Image) (a : ℚ)
    (hmdoc : wd.mdoc_exists = true)
    (hmag : (get_mag (some wd.mdoc_lines)).retval = some a)
    (hex : wd.extract_ok = true)
    (hbl : wd.blend_ok = true)
    (hbe : wd.blended_exists = true)
    (hblend : wd.blended = .d2 img)
    (hlarge : 2000000000 < img.length * width img) :
    (process_mrc_file wd).1 = true ∧
    (process_mrc_file wd).2.ome_tif = true ∧
    (process_mrc_file wd).2.h5 = wd.create_h5 ∧
    (process_mrc_file wd).2.xml = wd.create_h5 ∧
    (process_mrc_file wd).2.reduced_tif =
      (if wd.create_h5 = true then none
       else some (calculate_reduction_factor (img.length, width img) 1000000000)) := by
  cases hc5 : wd.create_h5 with
  | false =>
    simp [process_mrc_file, hmdoc, hmag, hex, hbl, hbe, hblend, hc5, sizePlane,
      create_ome_bigtiff_pyramid, create_hdf5_pyramid, cleanupFS, emptyFS, hlarge]
  | true =>
    simp [process_mrc_file, hmdoc, hmag, hex, hbl, hbe, hblend, hc5, sizePlane,
      create_ome_bigtiff_pyramid, create_hdf5_pyramid, cleanupFS, emptyFS, hlarge]

/-- C5 witness: the theorem applied at `largeWorld`, whose blended image
is 1 × 2000000001 pixels and whose descriptor reads `PixelSpacing = 2`. -/
theorem process_large_image_spec_witness :
    (process_mrc_file largeWorld).1 = true ∧
    (process_mrc_file largeWorld).2.ome_tif = true ∧
    (process_mrc_file largeWorld).2.h5 = largeWorld.create_h5 ∧
    (process_mrc_file largeWorld).2.xml = largeWorld.create_h5 ∧
    (process_mrc_file largeWorld).2.reduced_tif =
      (if largeWorld.create_h5 = true then none
       else some (calculate_reduction_factor
         (hugeImage.length, width hugeImage) 1000000000)) :=
  process_large_image_spec largeWorld hugeImage 2 rfl (by decide) rfl rfl rfl rfl
    (by
      have hw : width hugeImage = 2000000001 := List.length_replicate _ _
      have hl : hugeImage.length = 1 := rfl
      rw [hl, hw]
      norm_num)

/-- C10: once the descriptor is read and both stitcher commands have run
(their artifacts `montage_plf*`, `MONTAGE_EDGES*` and the blended `.mrc`
being on disk), cleanup happens exactly on the success path: on success
all three intermediates are removed, on any raised exception all three
remain; the file is still reported (counted) and the batch processes every
remaining file. -/
theorem process_cleanup_spec (wd : World) (a : ℚ)
    (hmdoc : wd.mdoc_exists = true)
    (hmag : (get_mag (some wd.mdoc_lines)).retval = some a)
    (hex : wd.extract_ok = true)
    (hbl : wd.blend_ok = true)
    (hbe : wd.blended_exists = true) :
    ((process_mrc_file wd).1 = true →
      (process_mrc_file wd).2.montage_plf = false ∧
      (process_mrc_file wd).2.montage_edges = false ∧
      (process_mrc_file wd).2.blended = false) ∧
    ((process_mrc_file wd).1 = false →
      (process_mrc_file wd).2.montage_plf = true ∧
      (process_mrc_file wd).2.montage_edges = true ∧
      (process_mrc_file wd).2.blended = true) ∧
    (∀ rest : List World, (run_batch (wd :: rest)).1 =
      (if (process_mrc_file wd).1 = true then 1 else 0) + (run_batch rest).1) ∧
    (∀ rest : List World, (run_batch (wd :: rest)).2 = 1 + (run_batch rest).2) ∧
    (∀ ws : List World, (run_batch ws).2 = ws.length) := by
  refine ⟨?_, ?_, fun rest => rfl, fun rest => rfl, run_batch_length⟩ <;>
  · rcases hbd : wd.blended with img | stack
    · cases hc5 : wd.create_h5 with
      | false =>
        by_cases hlg : 2000000000 < img.length * width img <;>
          simp [process_mrc_file, hmdoc, hmag, hex, hbl, hbe, hbd, hc5, sizePlane,
            create_ome_bigtiff_pyramid, create_hdf5_pyramid, cleanupFS, emptyFS, hlg]
      | true =>
        by_cases hlg : 2000000000 < img.length * width img <;>
          simp [process_mrc_file, hmdoc, hmag, hex, hbl, hbe, hbd, hc5, sizePlane,
            create_ome_bigtiff_pyramid, create_hdf5_pyramid, cleanupFS, emptyFS, hlg]
    · cases stack with
      | nil =>
        simp [process_mrc_file, hmdoc, hmag, hex, hbl, hbe, hbd, sizePlane,
          create_ome_bigtiff_pyramid, cleanupFS, emptyFS]
      | cons p ps =>
        simp [process_mrc_file, hmdoc, hmag, hex, hbl, hbe, hbd, sizePlane,
          create_ome_bigtiff_pyramid, cleanupFS, emptyFS]

/-- C10 witness: the cleanup theorem applied at `smallWorld`, a world
whose processing succeeds end to end. -/
theorem process_cleanup_spec_witness :
    ((process_mrc_file smallWorld).1 = true →
      (process_mrc_file smallWorld).2.montage_plf = false ∧
      (process_mrc_file smallWorld).2.montage_edges = false ∧
      (process_mrc_file smallWorld).2.blended = false) ∧
    ((process_mrc_file smallWorld).1 = false →
      (process_mrc_file smallWorld).2.montage_plf = true ∧
      (process_mrc_file smallWorld).2.montage_edges = true ∧
      (process_mrc_file smallWorld).2.blended = true) ∧
    (∀ rest : List World, (run_batch (smallWorld :: rest)).1 =
      (if (process_mrc_file smallWorld).1 = true then 1 else 0) + (run_batch rest).1) ∧
    (∀ rest : List World, (run_batch (smallWorld :: rest)).2 = 1 + (run_batch rest).2) ∧
    (∀ ws : List World, (run_batch ws).2 = ws.length) :=
  process_cleanup_spec smallWorld 2 rfl (by decide) rfl rfl rfl
